import Mathlib

/-!
Verification development for the `github-copilot-agent-router` VS Code
extension.  The TypeScript sources are shallowly embedded as Lean
definitions:

* `src/router.ts`            → `normalizeThreshold`, `getRoutingDecision`
  (JavaScript `number` values are modelled by `JsNum`: `NaN`, the two
  infinities, and finite values as rationals — every finite IEEE double is
  a rational, and the arithmetic performed here, `Math.min` / `Math.max` /
  `Math.round` on values in `[0, 100]`, is exact on doubles);
* `src/models.ts`            → `FREE_MODEL_FAMILIES`, `isFreeFamily`,
  `selectModel` (parameterised by the list of available models that
  `vscode.lm.selectChatModels` would return);
* `src/scorer.ts`            → `scorePromptComplexity` together with an
  executable matcher for the keyword regular expressions (each pattern is
  an alternation of literals plus one `\s*` gap, matched case-insensitively
  between word boundaries);
* `src/agent.ts` (`runAgentLoop`) → `loopRounds` / `runAgentLoop`, a
  fuel-indexed functional loop over an abstract environment `AgentEnv`
  supplying the model (`sendRequest`, returning a `ModelResponse` whose
  `stream` may itself throw after its chunks — the `for await` over
  `response.stream` sits outside any `try` in the source, so such a
  throw escapes `runAgentLoop` uncaught, recorded as the
  `ExitReason.streamThrown` termination), the tool machinery
  (`invokeTool`, with a thrown exception modelled as `Except.error`) and
  the cancellation token (`cancelled`, sampled at the successive
  `isCancellationRequested` checks, numbered by a clock that the loop
  threads through).

The `OutputChannel` diagnostics log of `runAgentLoop` is not modelled
(it is a debug channel, not the user-visible response stream); the
chat response stream is modelled by the ordered list `out` of `OutItem`
values, one constructor per `stream.markdown` call site.
-/

/-! ## JavaScript numbers (for `src/router.ts`) -/

/-- A JavaScript `number`: `NaN`, `±Infinity`, or a finite value
(modelled as a rational). -/
inductive JsNum where
  | nan
  | posInf
  | negInf
  | num (q : ℚ)
deriving DecidableEq, Repr

/-- `Number.isFinite`. -/
def JsNum.isFinite : JsNum → Bool
  | .num _ => true
  | _ => false

/-- `Math.min` on two arguments: `NaN` propagates, otherwise the smaller. -/
def jsMin (a b : JsNum) : JsNum :=
  match a, b with
  | .nan, _ => .nan
  | _, .nan => .nan
  | .negInf, _ => .negInf
  | _, .negInf => .negInf
  | .posInf, b => b
  | a, .posInf => a
  | .num x, .num y => .num (min x y)

/-- `Math.max` on two arguments: `NaN` propagates, otherwise the larger. -/
def jsMax (a b : JsNum) : JsNum :=
  match a, b with
  | .nan, _ => .nan
  | _, .nan => .nan
  | .posInf, _ => .posInf
  | _, .posInf => .posInf
  | .negInf, b => b
  | a, .negInf => a
  | .num x, .num y => .num (max x y)

/-- `Math.round`: round half toward `+∞`, i.e. `⌊x + 1/2⌋` on finite
values (`Math.round(-0.5)` is `-0 = 0`, matching `⌊0⌋`). -/
def jsRound : JsNum → JsNum
  | .nan => .nan
  | .posInf => .posInf
  | .negInf => .negInf
  | .num q => .num ((⌊q + 1/2⌋ : ℤ) : ℚ)

/-- The JavaScript comparison `a <= b` (`false` whenever `NaN` is involved). -/
def jsLe : JsNum → JsNum → Bool
  | .nan, _ => false
  | _, .nan => false
  | .negInf, _ => true
  | _, .posInf => true
  | .posInf, _ => false
  | _, .negInf => false
  | .num x, .num y => decide (x ≤ y)

/-- Free/premium tier tag (`ModelTier` in `src/models.ts`). -/
inductive ModelTier where
  | free
  | premium
deriving DecidableEq, Repr

/-! ## `src/router.ts` -/

/-- `RouterInput` from `src/router.ts`. -/
structure RouterInput where
  score : JsNum
  freeThreshold : JsNum
deriving DecidableEq, Repr

/-- `RoutingDecision` from `src/router.ts`. -/
structure RoutingDecision where
  tier : ModelTier
  score : JsNum
  threshold : JsNum
deriving DecidableEq, Repr

/-- `normalizeThreshold` from `src/router.ts`:
`if (!Number.isFinite(value)) return 70;
 return Math.round(Math.max(0, Math.min(100, value)));`. -/
def normalizeThreshold (value : JsNum) : JsNum :=
  if !value.isFinite then .num 70
  else jsRound (jsMax (.num 0) (jsMin (.num 100) value))

/-- `getRoutingDecision` from `src/router.ts`. -/
def getRoutingDecision (input : RouterInput) : RoutingDecision :=
  let threshold := normalizeThreshold input.freeThreshold
  let tier : ModelTier := if jsLe input.score threshold then .free else .premium
  { tier := tier, score := input.score, threshold := threshold }

/-- The claim wording for C9: the threshold is "rounded and clamped into
`[0, 100]`" — rounding first, then clamping (the source clamps first and
then rounds; the two agree, which `roundClamp_eq_clampRound` proves). -/
def roundThenClamp (q : ℚ) : ℤ := max 0 (min 100 ⌊q + 1/2⌋)

/-! ## JavaScript string helpers -/

/-- JavaScript `\s`, which is also exactly the set `trim` strips: the
ECMAScript WhiteSpace characters (TAB, VT, FF, SPACE, NBSP, ZWNBSP
U+FEFF, and the Unicode Zs spaces U+1680, U+2000-U+200A, U+202F,
U+205F, U+3000) plus the LineTerminators (LF, CR, LS U+2028, PS
U+2029). -/
def isJsSpace (c : Char) : Bool :=
  c == ' ' || c == '\t' || c == '\n' || c == '\r' ||
  c == Char.ofNat 0xB || c == Char.ofNat 0xC || c == Char.ofNat 0xA0 ||
  c == Char.ofNat 0x1680 || (0x2000 ≤ c.toNat && c.toNat ≤ 0x200A) ||
  c == Char.ofNat 0x2028 || c == Char.ofNat 0x2029 ||
  c == Char.ofNat 0x202F || c == Char.ofNat 0x205F ||
  c == Char.ofNat 0x3000 || c == Char.ofNat 0xFEFF

/-- `String.prototype.toLowerCase` (ASCII case mapping, which is all the
compared strings use). -/
def jsToLower (s : String) : String := String.mk (s.data.map Char.toLower)

/-- `String.prototype.trim`: strip leading and trailing whitespace. -/
def jsTrim (s : String) : String :=
  String.mk (((s.data.dropWhile isJsSpace).reverse.dropWhile isJsSpace).reverse)

/-! ## `src/models.ts` -/

/-- The slice of `vscode.LanguageModelChat` that `src/models.ts` reads:
the model `id` and `family`. -/
structure ChatModel where
  id : String
  family : String
deriving DecidableEq, Repr

/-- `FREE_MODEL_FAMILIES` from `src/models.ts`. -/
def FREE_MODEL_FAMILIES : List String := ["gpt-4o", "gpt-4o-mini", "gpt-4.1"]

/-- `isFreeFamily` from `src/models.ts`. -/
def isFreeFamily (family : String) : Bool :=
  FREE_MODEL_FAMILIES.any (fun f => jsTrim (jsToLower family) == jsToLower f)

/-- `ModelSelection` from `src/models.ts`. -/
structure ModelSelection where
  model : ChatModel
  tier : ModelTier
  family : String
deriving DecidableEq, Repr

/-- `selectModel` from `src/models.ts`, parameterised by the list of
available models (`await getAllModels()`).  Note the last premium
fallback: the source returns `tier: "free"` even though its comment
speaks of marking the selection as premium intent. -/
def selectModel (allModels : List ChatModel) (tier : ModelTier) : Option ModelSelection :=
  match allModels with
  | [] => none
  | first :: _ =>
    if tier = ModelTier.free then
      match FREE_MODEL_FAMILIES.findSome?
          (fun fam => allModels.find? (fun m => jsToLower m.family == jsToLower fam)) with
      | some m => some { model := m, tier := .free, family := m.family }
      | none =>
        match allModels.find? (fun m => isFreeFamily m.family) with
        | some m => some { model := m, tier := .free, family := m.family }
        | none => some { model := first, tier := .free, family := first.family }
    else
      match allModels.find? (fun m => !isFreeFamily m.family) with
      | some m => some { model := m, tier := .premium, family := m.family }
      | none => some { model := first, tier := .free, family := first.family }

/-! ## `src/scorer.ts` -/

/-- `ComplexityResult` from `src/scorer.ts`.  The score is kept as a
natural number: every value the scorer computes is a non-negative
integer, so JavaScript `Math.round` inside `clampScore` is the identity. -/
structure ComplexityResult where
  score : ℕ
  reasons : List String
deriving DecidableEq, Repr

/-- One token of a keyword pattern: a literal, or a `\s*` gap.  Every
`COMPLEXITY_TERMS` pattern is `\b(alt|alt|...)\b` with the `i` flag,
where each alternative is a sequence of such tokens. -/
inductive PatTok where
  | lit (s : String)
  | ws
deriving DecidableEq, Repr

/-- JavaScript `\w`, the word characters defining `\b`: `[A-Za-z0-9_]`. -/
def isWordChar (c : Char) : Bool :=
  c.isAlpha || c.isDigit || c == '_'

/-- Match a token sequence at the head of `cs`, returning the remaining
suffix.  `\s*` is greedy; in the sole pattern using it the next literal
starts with a non-space character, so consuming the maximal whitespace
run is exact (no backtracking is ever needed). -/
def matchToks : List PatTok → List Char → Option (List Char)
  | [], cs => some cs
  | PatTok.lit s :: toks, cs =>
      if s.data.isPrefixOf cs then matchToks toks (cs.drop s.data.length) else none
  | PatTok.ws :: toks, cs => matchToks toks (cs.dropWhile isJsSpace)

/-- Does one alternative match starting exactly here, with the trailing
word boundary?  (Every alternative ends in a word character, so `\b`
after it means: end of input, or a non-word character next.) -/
def altMatchesAt (alt : List PatTok) (cs : List Char) : Bool :=
  match matchToks alt cs with
  | some [] => true
  | some (c :: _) => !isWordChar c
  | none => false

/-- Scan for a match at any position.  `boundary` says whether a `\b`
holds before the current position (start of input, or previous character
non-word; every alternative begins with a word character). -/
def testPatternFrom (alts : List (List PatTok)) : Bool → List Char → Bool
  | _, [] => false
  | boundary, c :: cs =>
      (boundary && alts.any (fun alt => altMatchesAt alt (c :: cs)))
      || testPatternFrom alts (!isWordChar c) cs

/-- `pattern.test(normalized)` for a case-insensitive `\b(...)\b`
alternation: both sides are lowercased (the alternatives below are
written lowercase), and a match is sought at every position. -/
def testPattern (alts : List (List PatTok)) (s : String) : Bool :=
  testPatternFrom alts true (jsToLower s).data

/-- One entry of `COMPLEXITY_TERMS`. -/
structure ComplexityTerm where
  alts : List (List PatTok)
  weight : ℕ
  reason : String

/-- `COMPLEXITY_TERMS` from `src/scorer.ts`.  The character class
`optimi[sz]e` is expanded into its two alternatives and `big\s*o` into
`lit "big", ws, lit "o"`; everything else is a plain literal. -/
def COMPLEXITY_TERMS : List ComplexityTerm :=
  [ { alts := [[PatTok.lit "architecture"], [PatTok.lit "system design"],
               [PatTok.lit "distributed"], [PatTok.lit "scalable"],
               [PatTok.lit "microservices"]],
      weight := 20, reason := "system-level request" },
    { alts := [[PatTok.lit "optimise"], [PatTok.lit "optimize"],
               [PatTok.lit "performance"],
               [PatTok.lit "big", PatTok.ws, PatTok.lit "o"],
               [PatTok.lit "benchmark"], [PatTok.lit "latency"],
               [PatTok.lit "throughput"]],
      weight := 15, reason := "performance focus" },
    { alts := [[PatTok.lit "security"], [PatTok.lit "auth"],
               [PatTok.lit "encryption"], [PatTok.lit "compliance"],
               [PatTok.lit "vulnerability"]],
      weight := 20, reason := "security/compliance" },
    { alts := [[PatTok.lit "refactor"], [PatTok.lit "migration"],
               [PatTok.lit "backward compatibility"], [PatTok.lit "legacy"]],
      weight := 12, reason := "codebase evolution" },
    { alts := [[PatTok.lit "machine learning"], [PatTok.lit "ml"],
               [PatTok.lit "neural"], [PatTok.lit "model training"],
               [PatTok.lit "inference"]],
      weight := 18, reason := "advanced domain" },
    { alts := [[PatTok.lit "debug"], [PatTok.lit "trace"],
               [PatTok.lit "root cause"], [PatTok.lit "intermittent"]],
      weight := 10, reason := "deep troubleshooting" } ]

/-- `clampScore` from `src/scorer.ts`:
`Math.max(0, Math.min(100, Math.round(value)))`.  The scorer only ever
passes a non-negative integer, on which `Math.round` is the identity. -/
def clampScore (value : ℕ) : ℕ := max 0 (min 100 value)

/-- `normalized.split(/\r?\n/).length`: one more than the number of
(non-overlapping, left-to-right) `\r?\n` separators. -/
def countLines : List Char → ℕ
  | [] => 1
  | '\r' :: '\n' :: cs => countLines cs + 1
  | '\n' :: cs => countLines cs + 1
  | _ :: cs => countLines cs

/-- The character class `[;:{}()[\]]` of the punctuation-density check
(the two brace characters are written via their code points). -/
def isComplexityPunct (c : Char) : Bool :=
  c == ';' || c == ':' || c == Char.ofNat 123 || c == Char.ofNat 125 ||
  c == '(' || c == ')' || c == '[' || c == ']'

/-- The fold step applied to each `COMPLEXITY_TERMS` entry: on a match,
add the weight and record the reason. -/
def applyTerm (prompt : String) (acc : ℕ × List String) (term : ComplexityTerm) :
    ℕ × List String :=
  if testPattern term.alts prompt then (acc.1 + term.weight, acc.2 ++ [term.reason])
  else acc

/-- The accumulation phase of `scorePromptComplexity` (everything
between the empty check and the final clamp/fallback): base score 10,
length bonus, multi-line bonus, punctuation-density bonus, then the
`COMPLEXITY_TERMS` fold. -/
def accumulateScore (normalized : String) : ℕ × List String :=
  let base : ℕ := 10
  let lengthBonus := min 25 (normalized.length / 50)
  let score1 := base + lengthBonus
  let reasons1 := if lengthBonus > 0 then ["longer prompt"] else []
  let lineCount := countLines normalized.data
  let score2 := if lineCount ≥ 4 then score1 + 8 else score1
  let reasons2 := reasons1 ++ (if lineCount ≥ 4 then ["multi-step structure"] else [])
  let punct := normalized.data.countP (fun c => isComplexityPunct c)
  let score3 := if punct ≥ 8 then score2 + 7 else score2
  let reasons3 := reasons2 ++ (if punct ≥ 8 then ["dense technical syntax"] else [])
  COMPLEXITY_TERMS.foldl (applyTerm normalized) (score3, reasons3)

/-- `scorePromptComplexity` from `src/scorer.ts`. -/
def scorePromptComplexity (prompt : String) : ComplexityResult :=
  let normalized := jsTrim prompt
  if normalized = "" then { score := 0, reasons := ["empty prompt"] }
  else
    let folded := accumulateScore normalized
    { score := clampScore folded.1,
      reasons := if folded.2.isEmpty then ["general request"] else folded.2 }

/-! ## `src/agent.ts` — data model -/

/-- The tool-call `input` value, opaque to the loop except for
`summarizeToolCall`, which checks whether it is a (truthy) object and
reads its `path` / `command` / `query` fields (a field holding the empty
string is falsy in JavaScript and treated like an absent one).  `raw`
tags the value so distinct inputs stay distinguishable. -/
inductive ToolInput where
  | nonObject (raw : String)
  | obj (path command query : Option String) (raw : String)
deriving DecidableEq, Repr

/-- `vscode.LanguageModelToolCallPart`: `callId`, tool `name`, `input`. -/
structure ToolCallPart where
  callId : String
  name : String
  input : ToolInput
deriving DecidableEq, Repr

/-- One chunk of `response.stream`: a `LanguageModelTextPart` or a
`LanguageModelToolCallPart`.  The `assistantParts` list collected by the
loop has exactly this type. -/
inductive Chunk where
  | text (value : String)
  | toolCall (call : ToolCallPart)
deriving DecidableEq, Repr

/-- One part of a tool result: `LanguageModelTextPart` or
`LanguageModelPromptTsxPart` (the latter kept opaque). -/
inductive ResultPart where
  | text (value : String)
  | promptTsx (raw : String)
deriving DecidableEq, Repr

/-- `vscode.LanguageModelToolResultPart`. -/
structure ToolResultPart where
  callId : String
  content : List ResultPart
deriving DecidableEq, Repr

/-- A conversation message as `runAgentLoop` builds them: the initial
`User` text message, an `Assistant` message carrying the round's parts,
or the `User(toolResults)` message batching a round's results. -/
inductive ChatMessage where
  | userText (content : String)
  | assistant (parts : List Chunk)
  | userToolResults (results : List ToolResultPart)
deriving DecidableEq, Repr

/-- One `stream.markdown` emission, one constructor per call site in
`runAgentLoop`: streamed model text, the `🔧` tool-call header, or the
`❌` model-error report. -/
inductive OutItem where
  | text (value : String)
  | toolHeader (value : String)
  | modelError (value : String)
deriving DecidableEq, Repr

/-- `vscode.LanguageModelChatResponse`: iterating `stream` yields the
listed chunks in order; `streamError = some e` models the response
stream itself throwing `e` on the pull after the last listed chunk.  In
the source only `model.sendRequest` sits inside the `try` — the
`for await` over `response.stream` does not — so such a throw escapes
`runAgentLoop` uncaught. -/
structure ModelResponse where
  stream : List Chunk
  streamError : Option String
deriving DecidableEq, Repr

/-- The loop's collaborators: the model (`model.sendRequest`, a thrown
request error modelled as `Except.error`, a successful request as a
`ModelResponse` whose stream may still throw mid-iteration; the
constant tool list and the token argument are folded into the
function), the tool machinery (`vscode.lm.invokeTool`, a thrown error —
tool not found, rejection, or a tool-body exception — modelled as
`Except.error`), and the cancellation token, sampled at the successive
`isCancellationRequested` checks which the loop numbers with a clock. -/
structure AgentEnv where
  sendRequest : List ChatMessage → Except String ModelResponse
  invokeTool : String → ToolInput → Except String (List ResultPart)
  cancelled : Nat → Bool

/-! ## `src/agent.ts` — functions -/

/-- `MAX_TOOL_ROUNDS` from `src/agent.ts`. -/
def MAX_TOOL_ROUNDS : Nat := 15

/-- `SYSTEM_PROMPT` from `src/agent.ts`. -/
def SYSTEM_PROMPT : String :=
  "You are an expert software engineering assistant running inside VS Code.\nYou have access to tools that let you read, write, edit, and delete files, run terminal commands, search the codebase, list directories, and read VS Code diagnostics.\n\nGuidelines:\n- Use tools proactively to gather context before making changes.\n- When editing files, always read them first to understand current content and line numbers.\n- After writing or editing files, confirm success by reading them back or checking diagnostics.\n- For multi-file changes, process one file at a time.\n- To delete a file, use the deleteFile tool.\n- When done, give a concise summary of what was changed and why."

/-- Remove the first occurrence of `pat` (JavaScript
`name.replace(pat, "")` with a string pattern replaces only the first
occurrence). -/
def removeFirstOcc (pat : List Char) : List Char → List Char
  | [] => []
  | c :: cs =>
      if pat.isPrefixOf (c :: cs) then (c :: cs).drop pat.length
      else c :: removeFirstOcc pat cs

/-- JavaScript truthiness of an optional string field: absent or empty
is falsy. -/
def truthy : Option String → Option String
  | some s => if s = "" then none else some s
  | none => none

/-- `summarizeToolCall` from `src/agent.ts` (the string
`"agent-router_"` is the tool-name constant defined at the top of the
file). -/
def summarizeToolCall (name : String) (input : ToolInput) : String :=
  let shortName := String.mk (removeFirstOcc "agent-router_".data name.data)
  match input with
  | ToolInput.nonObject _ => "`" ++ shortName ++ "`"
  | ToolInput.obj path command query _ =>
      match truthy path with
      | some p => "`" ++ shortName ++ "` → `" ++ p ++ "`"
      | none =>
          match truthy command with
          | some c => "`" ++ shortName ++ "` → `" ++ String.mk (c.data.take 60) ++ "`"
          | none =>
              match truthy query with
              | some q => "`" ++ shortName ++ "` → \"" ++ String.mk (q.data.take 60) ++ "\""
              | none => "`" ++ shortName ++ "`"

/-- The `try { await vscode.lm.invokeTool(...) } catch` body of the
per-call processing: a successful invocation's content, or the caught
error converted to a single text part carrying the error message. -/
def toolResultContent (env : AgentEnv) (call : ToolCallPart) : List ResultPart :=
  match env.invokeTool call.name call.input with
  | Except.ok content => content
  | Except.error msg =>
      [ResultPart.text ("Tool \"" ++ call.name ++ "\" error: " ++ msg)]

/-- What the `for await (const chunk of response.stream)` loop produced:
the pending assistant parts, the round's collected tool calls, the
streamed text output, and the clock after the loop's cancellation
checks. -/
structure StreamResult where
  assistantParts : List Chunk
  toolCalls : List ToolCallPart
  outs : List OutItem
  clock : Nat
deriving DecidableEq, Repr

/-- The stream-consumption loop of `runAgentLoop`, walking the chunks
of a response whose stream throws `serr` after them: one cancellation
check per yielded chunk (a `break` stops consumption and, since nothing
further is pulled from the iterator, also forestalls a pending stream
throw); text chunks are forwarded to the sink and appended to the
pending assistant parts, tool calls are collected and also appended to
the pending parts.  The second component reports the stream throwing:
`some e` exactly when every chunk was consumed without a break and the
next pull fails. -/
def consumeStream (env : AgentEnv) (serr : Option String) :
    List Chunk → Nat → StreamResult × Option String
  | [], t => (⟨[], [], [], t⟩, serr)
  | chunk :: rest, t =>
      if env.cancelled t then (⟨[], [], [], t + 1⟩, none)
      else
        let r := consumeStream env serr rest (t + 1)
        match chunk with
        | Chunk.text v =>
            (⟨chunk :: r.1.assistantParts, r.1.toolCalls,
              OutItem.text v :: r.1.outs, r.1.clock⟩, r.2)
        | Chunk.toolCall call =>
            (⟨chunk :: r.1.assistantParts, call :: r.1.toolCalls,
              r.1.outs, r.1.clock⟩, r.2)

/-- What the per-round tool loop produced: the `toolResults` batch, the
`🔧` headers streamed to the sink, and the clock after the loop's
cancellation checks. -/
structure ToolsResult where
  results : List ToolResultPart
  outs : List OutItem
  clock : Nat
deriving DecidableEq, Repr

/-- The `for (const call of toolCalls)` loop of `runAgentLoop`: one
cancellation check per call (a `break` stops processing the remaining
calls); each processed call streams its header and appends exactly one
`ToolResultPart` built from its own outcome. -/
def runTools (env : AgentEnv) : List ToolCallPart → Nat → ToolsResult
  | [], t => ⟨[], [], t⟩
  | call :: rest, t =>
      if env.cancelled t then ⟨[], [], t + 1⟩
      else
        let header :=
          OutItem.toolHeader ("\n\n> 🔧 " ++ summarizeToolCall call.name call.input ++ "\n\n")
        let content := toolResultContent env call
        let r := runTools env rest (t + 1)
        ⟨⟨call.callId, content⟩ :: r.results, header :: r.outs, r.clock⟩

/-- How the round loop ended: the top-of-round cancellation `break`,
the caught-request-error `break`, an uncaught throw of the response
stream propagating out of `runAgentLoop` (the `for await` is outside
the `try`), the zero-tool-calls `break`, or the `for` condition
`round < MAX_TOOL_ROUNDS` running out. -/
inductive ExitReason where
  | cancelled
  | modelError
  | streamThrown (e : String)
  | noToolCalls
  | budgetExhausted
deriving DecidableEq, Repr

/-- The observable outcome of a run: the final conversation, everything
streamed to the sink in order, the number of `model.sendRequest`
invocations (= rounds executed), why the loop stopped, and the final
clock. -/
structure RunResult where
  messages : List ChatMessage
  out : List OutItem
  modelCalls : Nat
  exit : ExitReason
  clock : Nat
deriving DecidableEq, Repr

/-- The `for (let round = 0; round < MAX_TOOL_ROUNDS; round++)` loop of
`runAgentLoop`, with the remaining rounds as fuel.  The source pushes
the assistant message before the tool loop and the `User(toolResults)`
message after it; both pushes land between this round's `sendRequest`
and the next one, so appending the two messages together preserves the
conversation at every point the environment observes it. -/
def loopRounds (env : AgentEnv) :
    Nat → List ChatMessage → List OutItem → Nat → Nat → RunResult
  | 0, msgs, out, t, calls => ⟨msgs, out, calls, ExitReason.budgetExhausted, t⟩
  | fuel + 1, msgs, out, t, calls =>
      if env.cancelled t then ⟨msgs, out, calls, ExitReason.cancelled, t + 1⟩
      else
        match env.sendRequest msgs with
        | Except.error e =>
            ⟨msgs, out ++ [OutItem.modelError ("\n\n❌ **Model error:** " ++ e)],
              calls + 1, ExitReason.modelError, t + 1⟩
        | Except.ok resp =>
            let p := consumeStream env resp.streamError resp.stream (t + 1)
            match p.2 with
            | some e =>
                ⟨msgs, out ++ p.1.outs, calls + 1, ExitReason.streamThrown e, p.1.clock⟩
            | none =>
              if p.1.toolCalls.isEmpty then
                ⟨msgs, out ++ p.1.outs, calls + 1, ExitReason.noToolCalls, p.1.clock⟩
              else
                let r := runTools env p.1.toolCalls p.1.clock
                loopRounds env fuel
                  (msgs ++ [ChatMessage.assistant p.1.assistantParts,
                            ChatMessage.userToolResults r.results])
                  (out ++ p.1.outs ++ r.outs) r.clock (calls + 1)

/-- `runAgentLoop` from `src/agent.ts`: initial conversation, then the
round loop.  (The `agentTools` filter and the empty-tools warning on the
diagnostics channel are not modelled: the tool list is a constant folded
into `env.sendRequest`.) -/
def runAgentLoop (env : AgentEnv) (userPrompt : String) : RunResult :=
  loopRounds env MAX_TOOL_ROUNDS
    [ChatMessage.userText (SYSTEM_PROMPT ++ "\n\nUser request: " ++ userPrompt)]
    [] 0 0

/-! ## Observables used in the claim statements -/

/-- The tool calls among a chunk list, in order. -/
def callsOf : List Chunk → List ToolCallPart
  | [] => []
  | Chunk.text _ :: cs => callsOf cs
  | Chunk.toolCall c :: cs => c :: callsOf cs

/-- The text chunks of a chunk list as sink items, in order. -/
def textsOf : List Chunk → List OutItem
  | [] => []
  | Chunk.text v :: cs => OutItem.text v :: textsOf cs
  | Chunk.toolCall _ :: cs => textsOf cs

/-- How many leading tool calls the per-round tool loop processes before
its first positive cancellation check.  This depends only on the
cancellation token, never on tool outcomes. -/
def processedCount (cancel : Nat → Bool) : List ToolCallPart → Nat → Nat
  | [], _ => 0
  | _ :: rest, t => if cancel t then 0 else processedCount cancel rest (t + 1) + 1

/-- Is this sink item the `❌` model-error report? -/
def isModelErrorItem : OutItem → Bool
  | OutItem.modelError _ => true
  | _ => false

/-- A cancellation token is monotone: once requested it stays requested. -/
def MonotoneCancel (cancel : Nat → Bool) : Prop :=
  ∀ u v : Nat, u ≤ v → cancel u = true → cancel v = true

/-! ## Confirmation Gate (spec §4.2) -/

/-- Modelled from the spec: a `ToolOutcome` — the Confirmation Gate
never throws, it returns `Success` or `Failure{message}`. -/
inductive ToolOutcome where
  | success (content : List ResultPart)
  | failure (message : String)
deriving DecidableEq, Repr

/-- Modelled from the spec: the slice of a `ToolDescriptor` the gate
needs — the registered name, whether a confirmation step is declared,
and the tool body (an exception modelled as `Except.error`). -/
structure ToolDescriptor where
  name : String
  requiresConfirmation : Bool
  invokeBody : ToolInput → Except String (List ResultPart)

/-- Modelled from the spec: the Confirmation Gate (§4.2), the behaviour
of `vscode.lm.invokeTool` + `prepareInvocation`, which is host
machinery, not part of this repository's sources.  It looks the
descriptor up by name and returns a descriptive `Failure` when absent;
a denied confirmation is a `Failure` without running the body; a tool
body exception is caught into a `Failure` carrying its message. -/
def gateInvoke (registry : List ToolDescriptor) (approve : Bool)
    (name : String) (input : ToolInput) : ToolOutcome :=
  match registry.find? (fun d => d.name == name) with
  | none => ToolOutcome.failure ("tool not found: " ++ name)
  | some d =>
      if d.requiresConfirmation && !approve then
        ToolOutcome.failure ("confirmation denied for tool " ++ name)
      else
        match d.invokeBody input with
        | Except.ok content => ToolOutcome.success content
        | Except.error msg => ToolOutcome.failure msg

/-! ## Concrete data for the witnesses -/

/-- A sample tool input (`path: "a.txt"`). -/
def sampleInput : ToolInput := ToolInput.obj (some "a.txt") none none "path a.txt"

/-- A sample call to a registered tool. -/
def sampleCall : ToolCallPart := ⟨"call-1", "agent-router_readFile", sampleInput⟩

/-- A sample call to an unregistered tool. -/
def ghostCall : ToolCallPart := ⟨"call-2", "agent-router_doesNotExist", sampleInput⟩

/-- Environment: every round yields one tool call and some text; the
tool succeeds; cancellation never fires. -/
def envAllTools : AgentEnv :=
  { sendRequest := fun _ => Except.ok ⟨[Chunk.toolCall sampleCall, Chunk.text "working"], none⟩,
    invokeTool := fun _ _ => Except.ok [ResultPart.text "file contents"],
    cancelled := fun _ => false }

/-- Environment: the model asks for an unregistered tool and
`invokeTool` throws (as `vscode.lm.invokeTool` does for an unknown
name); cancellation never fires. -/
def envToolError : AgentEnv :=
  { sendRequest := fun _ => Except.ok ⟨[Chunk.toolCall ghostCall], none⟩,
    invokeTool := fun _ _ =>
      Except.error "Tool agent-router_doesNotExist was not contributed",
    cancelled := fun _ => false }

/-- Environment: cancellation is requested from check instant 2 onward,
which lands in the middle of the first round's stream. -/
def envCancelMid : AgentEnv :=
  { sendRequest := fun _ => Except.ok ⟨[Chunk.toolCall sampleCall, Chunk.text "tail"], none⟩,
    invokeTool := fun _ _ => Except.ok [ResultPart.text "file contents"],
    cancelled := fun t => decide (2 ≤ t) }

/-- Environment: the model transport fails. -/
def envModelError : AgentEnv :=
  { sendRequest := fun _ => Except.error "network unreachable",
    invokeTool := fun _ _ => Except.ok [],
    cancelled := fun _ => false }

/-- Environment: the model answers with text only. -/
def envTextOnly : AgentEnv :=
  { sendRequest := fun _ => Except.ok ⟨[Chunk.text "Hello!"], none⟩,
    invokeTool := fun _ _ => Except.ok [],
    cancelled := fun _ => false }

/-- Environment: the request succeeds but the response stream throws
after yielding one text chunk; cancellation never fires. -/
def envStreamThrow : AgentEnv :=
  { sendRequest := fun _ =>
      Except.ok ⟨[Chunk.text "partial answer"], some "connection reset"⟩,
    invokeTool := fun _ _ => Except.ok [],
    cancelled := fun _ => false }

/-- A one-tool registry for the gate witnesses. -/
def sampleRegistry : List ToolDescriptor :=
  [ { name := "agent-router_readFile", requiresConfirmation := false,
      invokeBody := fun _ => Except.ok [ResultPart.text "file contents"] } ]

/-! ## Helper lemmas -/

/-- Rounding commutes with clamping to `[0, 100]`: the source clamps
first and rounds second; the claim says "rounded and clamped". -/
theorem roundClamp_eq_clampRound (q : ℚ) :
    ⌊max 0 (min 100 q) + 1/2⌋ = max 0 (min 100 ⌊q + 1/2⌋) := by
  have h0 : (⌊(0:ℚ) + 1/2⌋ : ℤ) = 0 := by
    rw [Int.floor_eq_iff]; norm_num
  have h100 : (⌊(100:ℚ) + 1/2⌋ : ℤ) = 100 := by
    rw [Int.floor_eq_iff]; norm_num
  rcases le_total q 0 with hq0 | hq0
  · have hmin : min (100:ℚ) q = q := min_eq_right (hq0.trans (by norm_num))
    have hmax : max (0:ℚ) q = 0 := max_eq_left hq0
    have hr : ⌊q + 1/2⌋ ≤ 0 := by
      calc ⌊q + 1/2⌋ ≤ ⌊(0:ℚ) + 1/2⌋ := Int.floor_le_floor (by linarith)
        _ = 0 := h0
    rw [hmin, hmax, h0]
    rw [min_eq_right (hr.trans (by norm_num)), max_eq_left hr]
  · rcases le_total q 100 with hq1 | hq1
    · have hmin : min (100:ℚ) q = q := min_eq_right hq1
      have hmax : max (0:ℚ) q = q := max_eq_right hq0
      have hlo : (0:ℤ) ≤ ⌊q + 1/2⌋ := by
        calc (0:ℤ) = ⌊(0:ℚ) + 1/2⌋ := h0.symm
          _ ≤ ⌊q + 1/2⌋ := Int.floor_le_floor (by linarith)
      have hhi : ⌊q + 1/2⌋ ≤ 100 := by
        calc ⌊q + 1/2⌋ ≤ ⌊(100:ℚ) + 1/2⌋ := Int.floor_le_floor (by linarith)
          _ = 100 := h100
      rw [hmin, hmax, min_eq_right hhi, max_eq_right hlo]
    · have hmin : min (100:ℚ) q = 100 := min_eq_left hq1
      have hlo : (100:ℤ) ≤ ⌊q + 1/2⌋ := by
        calc (100:ℤ) = ⌊(100:ℚ) + 1/2⌋ := h100.symm
          _ ≤ ⌊q + 1/2⌋ := Int.floor_le_floor (by linarith)
      rw [hmin, max_eq_right (by norm_num : (0:ℚ) ≤ 100), h100,
        min_eq_left hlo, max_eq_right (by omega : (0:ℤ) ≤ 100)]

/-- The fold over `COMPLEXITY_TERMS` never decreases the score. -/
theorem applyTerm_foldl_score_le (p : String) (l : List ComplexityTerm)
    (acc : ℕ × List String) : acc.1 ≤ (l.foldl (applyTerm p) acc).1 := by
  induction l generalizing acc with
  | nil => exact le_rfl
  | cons term ts ih =>
      refine le_trans ?_ (ih (applyTerm p acc term))
      unfold applyTerm
      split
      · exact Nat.le_add_right _ _
      · exact le_rfl

/-- The accumulation phase starts from the base score 10 and only adds. -/
theorem accumulateScore_ge_10 (normalized : String) :
    10 ≤ (accumulateScore normalized).1 := by
  unfold accumulateScore
  refine le_trans ?_ (applyTerm_foldl_score_le _ _ _)
  dsimp only
  split <;> split <;> omega

/-- With no positive cancellation check, the stream loop consumes every
chunk: the pending assistant parts are the chunks themselves, the
collected calls and streamed text are the projections, one check per
chunk advances the clock, and the iteration ends the way the stream
does — throwing exactly when `serr` says so. -/
theorem consumeStream_no_cancel (env : AgentEnv) (serr : Option String)
    (chunks : List Chunk) (t : Nat)
    (h : ∀ i, i < chunks.length → env.cancelled (t + i) = false) :
    consumeStream env serr chunks t =
      (⟨chunks, callsOf chunks, textsOf chunks, t + chunks.length⟩, serr) := by
  induction chunks generalizing t with
  | nil => simp [consumeStream, callsOf, textsOf]
  | cons c cs ih =>
      have h0 : env.cancelled t = false := by
        have := h 0 (by simp)
        simpa using this
      have ih' := ih (t + 1) (fun i hi => by
        have := h (i + 1) (by simpa using Nat.succ_lt_succ hi)
        simpa [Nat.add_comm, Nat.add_left_comm] using this)
      cases c with
      | text v =>
          simp [consumeStream, h0, ih', callsOf, textsOf]
          omega
      | toolCall call =>
          simp [consumeStream, h0, ih', callsOf, textsOf]
          omega

/-- If the first positive cancellation check of the stream loop is the
one for chunk `k`, consumption stops there: exactly the first `k`
chunks are consumed, and — since the `break` pulls nothing further from
the iterator — a pending stream throw never materialises, whatever
`serr` is. -/
theorem consumeStream_cancel_at (env : AgentEnv) (serr : Option String)
    (chunks : List Chunk) (t k : Nat)
    (hk : k < chunks.length)
    (hcanc : env.cancelled (t + k) = true)
    (hbefore : ∀ i, i < k → env.cancelled (t + i) = false) :
    consumeStream env serr chunks t =
      (⟨chunks.take k, callsOf (chunks.take k), textsOf (chunks.take k),
        t + k + 1⟩, none) := by
  induction chunks generalizing t k with
  | nil => simp at hk
  | cons c cs ih =>
      cases k with
      | zero =>
          have h0 : env.cancelled t = true := by simpa using hcanc
          simp [consumeStream, h0, callsOf, textsOf]
      | succ k =>
          have h0 : env.cancelled t = false := by
            have := hbefore 0 (Nat.succ_pos k)
            simpa using this
          have ih' := ih (t + 1) k (by simpa using Nat.lt_of_succ_lt_succ hk)
            (by simpa [Nat.add_comm, Nat.add_left_comm] using hcanc)
            (fun i hi => by
              have := hbefore (i + 1) (Nat.succ_lt_succ hi)
              simpa [Nat.add_comm, Nat.add_left_comm] using this)
          cases c with
          | text v =>
              simp [consumeStream, h0, ih', callsOf, textsOf, List.take_succ_cons]
              omega
          | toolCall call =>
              simp [consumeStream, h0, ih', callsOf, textsOf, List.take_succ_cons]
              omega

/-- The tool loop processes at most as many calls as there are. -/
theorem processedCount_le_length (cancel : Nat → Bool) (calls : List ToolCallPart) (t : Nat) :
    processedCount cancel calls t ≤ calls.length := by
  induction calls generalizing t with
  | nil => simp [processedCount]
  | cons c cs ih =>
      unfold processedCount
      split
      · simp
      · simpa using Nat.succ_le_succ (ih (t + 1))

/-- With no positive cancellation check, every call is processed. -/
theorem processedCount_no_cancel (cancel : Nat → Bool) (calls : List ToolCallPart) (t : Nat)
    (h : ∀ i, i < calls.length → cancel (t + i) = false) :
    processedCount cancel calls t = calls.length := by
  induction calls generalizing t with
  | nil => simp [processedCount]
  | cons c cs ih =>
      have h0 : cancel t = false := by
        have := h 0 (by simp)
        simpa using this
      have ih' := ih (t + 1) (fun i hi => by
        have := h (i + 1) (by simpa using Nat.succ_lt_succ hi)
        simpa [Nat.add_comm, Nat.add_left_comm] using this)
      simp [processedCount, h0, ih']

/-- The results batch of the tool loop: exactly one `ToolResultPart` per
processed call, in request order, each built from the call's own
outcome. -/
theorem runTools_results_eq (env : AgentEnv) (calls : List ToolCallPart) (t : Nat) :
    (runTools env calls t).results =
      (calls.take (processedCount env.cancelled calls t)).map
        (fun c => ⟨c.callId, toolResultContent env c⟩) := by
  induction calls generalizing t with
  | nil => simp [runTools, processedCount]
  | cons c cs ih =>
      unfold runTools processedCount
      split
      · simp
      · simp [ih (t + 1), List.take_succ_cons]

/-- The sink items of the tool loop: one `🔧` header per processed call. -/
theorem runTools_outs_eq (env : AgentEnv) (calls : List ToolCallPart) (t : Nat) :
    (runTools env calls t).outs =
      (calls.take (processedCount env.cancelled calls t)).map
        (fun c => OutItem.toolHeader
          ("\n\n> 🔧 " ++ summarizeToolCall c.name c.input ++ "\n\n")) := by
  induction calls generalizing t with
  | nil => simp [runTools, processedCount]
  | cons c cs ih =>
      unfold runTools processedCount
      split
      · simp
      · simp [ih (t + 1), List.take_succ_cons]

/-- A cancellation check that is already positive when the tool loop
starts makes it process nothing at all. -/
theorem runTools_cancel_now (env : AgentEnv) (c : ToolCallPart)
    (cs : List ToolCallPart) (t : Nat) (h : env.cancelled t = true) :
    runTools env (c :: cs) t = ⟨[], [], t + 1⟩ := by
  simp [runTools, h]

/-- Unfolding one round that collected at least one tool call: the
assistant message and the whole batch of this round's results are
appended to the conversation handed to the rest of the loop — i.e.
before the next `model.sendRequest`. -/
theorem loopRounds_continue (env : AgentEnv) (fuel : Nat) (msgs : List ChatMessage)
    (out : List OutItem) (t calls : Nat) (resp : ModelResponse)
    (hc : env.cancelled t = false)
    (hsend : env.sendRequest msgs = Except.ok resp)
    (hno : (consumeStream env resp.streamError resp.stream (t + 1)).2 = none)
    (hne : (consumeStream env resp.streamError resp.stream (t + 1)).1.toolCalls ≠ []) :
    loopRounds env (fuel + 1) msgs out t calls =
      loopRounds env fuel
        (msgs ++ [ChatMessage.assistant
            (consumeStream env resp.streamError resp.stream (t + 1)).1.assistantParts,
          ChatMessage.userToolResults
            (runTools env (consumeStream env resp.streamError resp.stream (t + 1)).1.toolCalls
              (consumeStream env resp.streamError resp.stream (t + 1)).1.clock).results])
        (out ++ (consumeStream env resp.streamError resp.stream (t + 1)).1.outs ++
          (runTools env (consumeStream env resp.streamError resp.stream (t + 1)).1.toolCalls
            (consumeStream env resp.streamError resp.stream (t + 1)).1.clock).outs)
        (runTools env (consumeStream env resp.streamError resp.stream (t + 1)).1.toolCalls
          (consumeStream env resp.streamError resp.stream (t + 1)).1.clock).clock
        (calls + 1) := by
  rw [loopRounds]
  simp [hc, hsend, hno, List.isEmpty_eq_true, hne]

/-- Unfolding one round that collected no tool call: the loop ends
successfully right after it. -/
theorem loopRounds_no_tools (env : AgentEnv) (fuel : Nat) (msgs : List ChatMessage)
    (out : List OutItem) (t calls : Nat) (resp : ModelResponse)
    (hc : env.cancelled t = false)
    (hsend : env.sendRequest msgs = Except.ok resp)
    (hno : (consumeStream env resp.streamError resp.stream (t + 1)).2 = none)
    (hempty : (consumeStream env resp.streamError resp.stream (t + 1)).1.toolCalls = []) :
    loopRounds env (fuel + 1) msgs out t calls =
      ⟨msgs, out ++ (consumeStream env resp.streamError resp.stream (t + 1)).1.outs,
        calls + 1, ExitReason.noToolCalls,
        (consumeStream env resp.streamError resp.stream (t + 1)).1.clock⟩ := by
  rw [loopRounds]
  simp [hc, hsend, hno, List.isEmpty_eq_true, hempty]

/-- Unfolding one round whose stream iteration throws (every chunk was
consumed and the next pull failed): the exception escapes the round
loop uncaught — the run ends with the `streamThrown` termination, the
conversation untouched, the already-streamed text standing, and no `❌`
report appended. -/
theorem loopRounds_stream_thrown (env : AgentEnv) (fuel : Nat)
    (msgs : List ChatMessage) (out : List OutItem) (t calls : Nat)
    (resp : ModelResponse) (e : String)
    (hc : env.cancelled t = false)
    (hsend : env.sendRequest msgs = Except.ok resp)
    (hthrow : (consumeStream env resp.streamError resp.stream (t + 1)).2 = some e) :
    loopRounds env (fuel + 1) msgs out t calls =
      ⟨msgs, out ++ (consumeStream env resp.streamError resp.stream (t + 1)).1.outs,
        calls + 1, ExitReason.streamThrown e,
        (consumeStream env resp.streamError resp.stream (t + 1)).1.clock⟩ := by
  rw [loopRounds]
  simp [hc, hsend, hthrow]

/-- A loop entered with cancellation already requested leaves the
conversation, the sink and the model-call count untouched. -/
theorem loopRounds_cancelled_entry (env : AgentEnv) (fuel : Nat)
    (msgs : List ChatMessage) (out : List OutItem) (t calls : Nat)
    (h : env.cancelled t = true) :
    (loopRounds env fuel msgs out t calls).messages = msgs
    ∧ (loopRounds env fuel msgs out t calls).out = out
    ∧ (loopRounds env fuel msgs out t calls).modelCalls = calls := by
  cases fuel with
  | zero => simp [loopRounds]
  | succ fuel => simp [loopRounds, h]

/-- The loop performs at most `fuel` further model invocations. -/
theorem loopRounds_modelCalls_le (env : AgentEnv) (fuel : Nat)
    (msgs : List ChatMessage) (out : List OutItem) (t calls : Nat) :
    (loopRounds env fuel msgs out t calls).modelCalls ≤ calls + fuel := by
  induction fuel generalizing msgs out t calls with
  | zero => simp [loopRounds]
  | succ fuel ih =>
      rw [loopRounds]
      split
      · simp
      · split
        · simp
        · dsimp only
          split
          · simp
          · split
            · simp
            · exact le_trans (ih _ _ _ _) (by omega)

/-- Every sink item of the stream loop is streamed text. -/
theorem consumeStream_outs_mem (env : AgentEnv) (serr : Option String)
    (chunks : List Chunk) (t : Nat) :
    ∀ o ∈ (consumeStream env serr chunks t).1.outs, isModelErrorItem o = false := by
  induction chunks generalizing t with
  | nil => simp [consumeStream]
  | cons c cs ih =>
      unfold consumeStream
      split
      · simp
      · cases c with
        | text v =>
            intro o ho
            rcases List.mem_cons.mp ho with h | h
            · subst h; rfl
            · exact ih (t + 1) o h
        | toolCall call => exact ih (t + 1)

/-- The stream loop never emits the `❌` model-error item. -/
theorem consumeStream_outs_count (env : AgentEnv) (serr : Option String)
    (chunks : List Chunk) (t : Nat) :
    (consumeStream env serr chunks t).1.outs.countP (fun o => isModelErrorItem o) = 0 := by
  rw [List.countP_eq_zero]
  intro a ha
  simp [consumeStream_outs_mem env serr chunks t a ha]

/-- The tool loop never emits the `❌` model-error item. -/
theorem runTools_outs_count (env : AgentEnv) (calls : List ToolCallPart) (t : Nat) :
    (runTools env calls t).outs.countP (fun o => isModelErrorItem o) = 0 := by
  rw [runTools_outs_eq, List.countP_eq_zero]
  intro a ha
  obtain ⟨c, _, rfl⟩ := List.mem_map.mp ha
  simp [isModelErrorItem]

/-- Across the whole round loop the `❌` model-error item is emitted at
most once more than it already occurs in the sink. -/
theorem loopRounds_modelError_count (env : AgentEnv) (fuel : Nat)
    (msgs : List ChatMessage) (out : List OutItem) (t calls : Nat) :
    (loopRounds env fuel msgs out t calls).out.countP (fun o => isModelErrorItem o) ≤
      out.countP (fun o => isModelErrorItem o) + 1 := by
  induction fuel generalizing msgs out t calls with
  | zero => simp [loopRounds]
  | succ fuel ih =>
      rw [loopRounds]
      split
      · simp
      · split
        · simp [List.countP_append, List.countP_cons, isModelErrorItem]
        · dsimp only
          split
          · simp [List.countP_append, consumeStream_outs_count]
          · split
            · simp [List.countP_append, consumeStream_outs_count]
            · refine le_trans (ih _ _ _ _) ?_
              simp [List.countP_append, consumeStream_outs_count, runTools_outs_count]

/-- If cancellation never fires and every round's stream carries at
least one tool call, the loop spends its entire fuel, one model call per
round, and stops by budget exhaustion. -/
theorem loopRounds_always_tools (env : AgentEnv)
    (hnc : ∀ u, env.cancelled u = false)
    (htools : ∀ msgs, ∃ resp, env.sendRequest msgs = Except.ok resp
      ∧ callsOf resp.stream ≠ [] ∧ resp.streamError = none)
    (fuel : Nat) :
    ∀ (msgs : List ChatMessage) (out : List OutItem) (t calls : Nat),
      (loopRounds env fuel msgs out t calls).modelCalls = calls + fuel
      ∧ (loopRounds env fuel msgs out t calls).exit = ExitReason.budgetExhausted := by
  induction fuel with
  | zero => intro msgs out t calls; simp [loopRounds]
  | succ fuel ih =>
      intro msgs out t calls
      obtain ⟨resp, hsend, hne, hserr⟩ := htools msgs
      have hcs := consumeStream_no_cancel env resp.streamError resp.stream (t + 1)
        (fun i _ => hnc _)
      have hno : (consumeStream env resp.streamError resp.stream (t + 1)).2 = none := by
        rw [hcs]; exact hserr
      have hne' : (consumeStream env resp.streamError resp.stream (t + 1)).1.toolCalls ≠ [] := by
        rw [hcs]; exact hne
      rw [loopRounds_continue env fuel msgs out t calls resp (hnc t) hsend hno hne']
      constructor
      · rw [(ih _ _ _ _).1]; omega
      · exact (ih _ _ _ _).2

/-! ## Claim theorems -/

/-- Claim C9: `getRoutingDecision` first normalizes the threshold — a
non-finite `freeThreshold` becomes 70, any other value is rounded and
clamped into `[0, 100]` — then assigns tier `free` exactly when the
score is `<=` (JavaScript comparison) the normalized threshold and
`premium` otherwise, returning the input score unchanged; for finite
score and threshold the comparison is the rational `≤`. -/
theorem c9_routing_decision (input : RouterInput) :
    (getRoutingDecision input).score = input.score
    ∧ (input.freeThreshold.isFinite = false →
        (getRoutingDecision input).threshold = JsNum.num 70)
    ∧ (∀ q : ℚ, input.freeThreshold = JsNum.num q →
        (getRoutingDecision input).threshold = JsNum.num ((roundThenClamp q : ℤ) : ℚ))
    ∧ ((getRoutingDecision input).tier = ModelTier.free ↔
        jsLe input.score (getRoutingDecision input).threshold = true)
    ∧ ((getRoutingDecision input).tier = ModelTier.premium ↔
        jsLe input.score (getRoutingDecision input).threshold = false)
    ∧ (∀ qs qt : ℚ, input.score = JsNum.num qs →
        (getRoutingDecision input).threshold = JsNum.num qt →
        ((getRoutingDecision input).tier = ModelTier.free ↔ qs ≤ qt)) := by
  refine ⟨rfl, ?_, ?_, ?_, ?_, ?_⟩
  · intro h
    simp [getRoutingDecision, normalizeThreshold, h]
  · intro q hq
    have hcast := congrArg (fun z : ℤ => JsNum.num (z : ℚ)) (roundClamp_eq_clampRound q)
    simp only [getRoutingDecision, hq]
    simpa [normalizeThreshold, JsNum.isFinite, jsMin, jsMax, jsRound,
      roundThenClamp] using hcast
  · cases h : jsLe input.score (normalizeThreshold input.freeThreshold) <;>
      simp [getRoutingDecision, h]
  · cases h : jsLe input.score (normalizeThreshold input.freeThreshold) <;>
      simp [getRoutingDecision, h]
  · intro qs qt hs ht
    have ht' : normalizeThreshold input.freeThreshold = JsNum.num qt := ht
    by_cases hq : qs ≤ qt <;> simp [getRoutingDecision, hs, ht', jsLe, hq]

/-- Witness for C9 at concrete inputs: a `NaN` threshold normalizes to
70 and a score of 50 is routed to the free tier. -/
theorem c9_routing_decision_witness :
    (getRoutingDecision ⟨JsNum.num 50, JsNum.nan⟩).threshold = JsNum.num 70
    ∧ ((getRoutingDecision ⟨JsNum.num 50, JsNum.nan⟩).tier = ModelTier.free ↔
        (50 : ℚ) ≤ 70) :=
  ⟨(c9_routing_decision ⟨JsNum.num 50, JsNum.nan⟩).2.1 rfl,
   (c9_routing_decision ⟨JsNum.num 50, JsNum.nan⟩).2.2.2.2.2 50 70 rfl
     ((c9_routing_decision ⟨JsNum.num 50, JsNum.nan⟩).2.1 rfl)⟩

/-- Claim C10: every score is an integer in `[0, 100]` (the embedded
score is a natural number, so only the upper bound is non-trivial) with
a non-empty reasons list; an empty or whitespace-only prompt yields
score 0 with the single reason "empty prompt"; every non-empty prompt
scores at least 10. -/
theorem c10_score_bounds (prompt : String) :
    (scorePromptComplexity prompt).score ≤ 100
    ∧ (scorePromptComplexity prompt).reasons ≠ []
    ∧ (jsTrim prompt = "" →
        scorePromptComplexity prompt = ⟨0, ["empty prompt"]⟩)
    ∧ (jsTrim prompt ≠ "" → 10 ≤ (scorePromptComplexity prompt).score) := by
  by_cases h : jsTrim prompt = ""
  · simp [scorePromptComplexity, h]
  · have h10 : 10 ≤ (accumulateScore (jsTrim prompt)).1 := accumulateScore_ge_10 _
    have hsc : scorePromptComplexity prompt =
        ⟨clampScore (accumulateScore (jsTrim prompt)).1,
          if (accumulateScore (jsTrim prompt)).2.isEmpty then ["general request"]
          else (accumulateScore (jsTrim prompt)).2⟩ := by
      simp only [scorePromptComplexity]
      rw [if_neg h]
    rw [hsc]
    refine ⟨?_, ?_, fun hc => absurd hc h, fun _ => ?_⟩
    · exact max_le (Nat.zero_le 100) (min_le_left _ _)
    · dsimp only
      split
      · simp
      · next hne =>
          intro hnil
          exact hne (by simp [hnil])
    · exact le_trans (le_min (by norm_num) h10) (le_max_right _ _)

/-- Witness for C10: the empty prompt and a concrete non-empty prompt. -/
theorem c10_score_bounds_witness :
    scorePromptComplexity "" = ⟨0, ["empty prompt"]⟩
    ∧ 10 ≤ (scorePromptComplexity "hello").score :=
  ⟨(c10_score_bounds "").2.2.1 rfl,
   (c10_score_bounds "hello").2.2.2 (by decide)⟩

/-- Claim C8 is false as stated: with a single available model of the
free family "gpt-4o" and the premium tier requested, `selectModel`
returns that model labelled `tier := free` — not a "premium intent"
label — so the reported tier does reflect the downgrade. -/
theorem c8_counterexample :
    selectModel [⟨"gpt-4o-id", "gpt-4o"⟩] ModelTier.premium =
      some ⟨⟨"gpt-4o-id", "gpt-4o"⟩, ModelTier.free, "gpt-4o"⟩
    ∧ (selectModel [⟨"gpt-4o-id", "gpt-4o"⟩] ModelTier.premium).map (fun s => s.tier) ≠
        some ModelTier.premium := by
  constructor
  · decide
  · decide

/-- Claim C8 amended: when the premium tier is requested and every
available model's family is free, `selectModel` still returns some model
— the first available, a free one — but labels the selection with
`tier := free` (only the source comment speaks of premium intent; the
returned tier reports the downgrade). -/
theorem c8_premium_fallback (models : List ChatModel) (first : ChatModel)
    (rest : List ChatModel) (hmodels : models = first :: rest)
    (hfree : ∀ m ∈ models, isFreeFamily m.family = true) :
    selectModel models ModelTier.premium =
      some ⟨first, ModelTier.free, first.family⟩ := by
  subst hmodels
  have hfind : (first :: rest).find? (fun m => !isFreeFamily m.family) = none := by
    rw [List.find?_eq_none]
    intro m hm
    simp [hfree m hm]
  simp [selectModel, hfind]

/-- Witness for the amended C8 at a two-model, all-free list. -/
theorem c8_premium_fallback_witness :
    selectModel [⟨"gpt-4o-id", "gpt-4o"⟩, ⟨"gpt-41-id", "gpt-4.1"⟩] ModelTier.premium =
      some ⟨⟨"gpt-4o-id", "gpt-4o"⟩, ModelTier.free, "gpt-4o"⟩ :=
  c8_premium_fallback _ _ _ rfl (by decide)

/-- Claim C1: in a round whose stream iteration ended without throwing
and collected at least one tool call, the whole batch of the round's
results — inside one `User(toolResults)` message right after the
assistant message — is appended to the conversation handed to the rest
of the loop, hence before the next model invocation; the batch holds
exactly one `ToolResult` per processed call, in request order, each
built from its own outcome; and when no cancellation check fires during
the tool loop, every request of the round is processed. -/
theorem c1_one_result_per_request (env : AgentEnv) (fuel : Nat)
    (msgs : List ChatMessage) (out : List OutItem) (t calls : Nat)
    (resp : ModelResponse) (s : StreamResult) (r : ToolsResult)
    (hc : env.cancelled t = false)
    (hsend : env.sendRequest msgs = Except.ok resp)
    (hs : consumeStream env resp.streamError resp.stream (t + 1) = (s, none))
    (hne : s.toolCalls ≠ [])
    (hr : runTools env s.toolCalls s.clock = r) :
    loopRounds env (fuel + 1) msgs out t calls =
      loopRounds env fuel
        (msgs ++ [ChatMessage.assistant s.assistantParts,
          ChatMessage.userToolResults r.results])
        (out ++ s.outs ++ r.outs) r.clock (calls + 1)
    ∧ r.results =
        (s.toolCalls.take (processedCount env.cancelled s.toolCalls s.clock)).map
          (fun c => ⟨c.callId, toolResultContent env c⟩)
    ∧ ((∀ i, i < s.toolCalls.length → env.cancelled (s.clock + i) = false) →
        r.results = s.toolCalls.map (fun c => ⟨c.callId, toolResultContent env c⟩)) := by
  have hs1 : (consumeStream env resp.streamError resp.stream (t + 1)).1 = s := by
    rw [hs]
  have hno : (consumeStream env resp.streamError resp.stream (t + 1)).2 = none := by
    rw [hs]
  have heq := loopRounds_continue env fuel msgs out t calls resp hc hsend hno
    (by rw [hs1]; exact hne)
  rw [hs1] at heq
  subst hr
  exact ⟨heq, runTools_results_eq env _ _, fun hnc => by
    rw [runTools_results_eq, processedCount_no_cancel _ _ _ hnc, List.take_length]⟩

/-- Witness for C1: one round of `envAllTools` yields exactly the one
result of its one call. -/
theorem c1_one_result_per_request_witness :
    (runTools envAllTools [sampleCall] 3).results =
      [⟨"call-1", [ResultPart.text "file contents"]⟩] := by
  have h := c1_one_result_per_request envAllTools 0
    [ChatMessage.userText "u"] [] 0 0
    ⟨[Chunk.toolCall sampleCall, Chunk.text "working"], none⟩ _ _
    rfl rfl rfl (by decide) rfl
  exact (h.2.2 (fun i _ => rfl)).trans (by decide)

/-- Claim C2: if the invocation of a processed call throws, the
exception is caught at the loop boundary and becomes that call's
single-text-part result whose text contains the original error message;
and the number of processed calls is `processedCount`, a function of the
cancellation token alone — a tool error never stops the remaining calls
from being processed. -/
theorem c2_tool_exception_contained (env : AgentEnv) (tcs : List ToolCallPart)
    (t i : Nat) (call : ToolCallPart) (msg : String)
    (hcall : tcs[i]? = some call)
    (hproc : i < processedCount env.cancelled tcs t)
    (herr : env.invokeTool call.name call.input = Except.error msg) :
    (runTools env tcs t).results[i]? =
      some ⟨call.callId,
        [ResultPart.text ("Tool \"" ++ call.name ++ "\" error: " ++ msg)]⟩
    ∧ (∃ pre : String,
        "Tool \"" ++ call.name ++ "\" error: " ++ msg = pre ++ msg)
    ∧ (runTools env tcs t).results.length = processedCount env.cancelled tcs t := by
  have hres := runTools_results_eq env tcs t
  have hlen : (runTools env tcs t).results.length =
      processedCount env.cancelled tcs t := by
    rw [hres, List.length_map, List.length_take]
    exact Nat.min_eq_left (processedCount_le_length _ _ _)
  refine ⟨?_, ⟨"Tool \"" ++ call.name ++ "\" error: ", rfl⟩, hlen⟩
  rw [hres, List.getElem?_map]
  have htake : (tcs.take (processedCount env.cancelled tcs t))[i]? = some call := by
    rw [List.getElem?_take, if_pos hproc]
    exact hcall
  rw [htake]
  simp [toolResultContent, herr]

/-- Witness for C2: the erroring call of `envToolError` yields the
converted failure text. -/
theorem c2_tool_exception_contained_witness :
    (runTools envToolError [ghostCall] 3).results[0]? =
      some ⟨"call-2",
        [ResultPart.text
          "Tool \"agent-router_doesNotExist\" error: Tool agent-router_doesNotExist was not contributed"]⟩ := by
  have h := c2_tool_exception_contained envToolError [ghostCall] 3 0 ghostCall
    "Tool agent-router_doesNotExist was not contributed" rfl (by decide) rfl
  exact h.1.trans (by decide)

/-- Claim C3: the round budget is the constant 15; no run ever performs
more than 15 model invocations; and when cancellation never fires and
the model returns at least one tool call every round (each round's
response stream completing normally), the loop performs exactly 15
rounds and stops by (silent) budget exhaustion — not by the model-error
exit. -/
theorem c3_round_budget (env : AgentEnv) (prompt : String) :
    MAX_TOOL_ROUNDS = 15
    ∧ (runAgentLoop env prompt).modelCalls ≤ MAX_TOOL_ROUNDS
    ∧ ((∀ u, env.cancelled u = false) →
        (∀ msgs, ∃ resp, env.sendRequest msgs = Except.ok resp
          ∧ callsOf resp.stream ≠ [] ∧ resp.streamError = none) →
        (runAgentLoop env prompt).modelCalls = 15
        ∧ (runAgentLoop env prompt).exit = ExitReason.budgetExhausted) := by
  refine ⟨rfl, ?_, fun hnc htools => ?_⟩
  · have h := loopRounds_modelCalls_le env MAX_TOOL_ROUNDS
      [ChatMessage.userText (SYSTEM_PROMPT ++ "\n\nUser request: " ++ prompt)] [] 0 0
    simpa [runAgentLoop] using h
  · have h := loopRounds_always_tools env hnc htools MAX_TOOL_ROUNDS
      [ChatMessage.userText (SYSTEM_PROMPT ++ "\n\nUser request: " ++ prompt)] [] 0 0
    exact ⟨by simpa [runAgentLoop, MAX_TOOL_ROUNDS] using h.1, h.2⟩

/-- Witness for C3: `envAllTools` always returns a tool call, so the
run takes exactly 15 rounds and exhausts the budget. -/
theorem c3_round_budget_witness :
    (runAgentLoop envAllTools "hi").modelCalls = 15
    ∧ (runAgentLoop envAllTools "hi").exit = ExitReason.budgetExhausted :=
  (c3_round_budget envAllTools "hi").2.2 (fun _ => rfl)
    (fun _ => ⟨⟨[Chunk.toolCall sampleCall, Chunk.text "working"], none⟩,
      rfl, by decide, rfl⟩)

/-- Claim C4: if the first positive cancellation check of a round lands
mid-stream (at chunk `k`, with calls already collected among the first
`k` chunks), the loop consumes no chunk beyond the first `k`, executes
no tool call of the round — the appended results batch is empty and no
`🔧` header is streamed — performs no further model invocation, and
everything already appended (`msgs`, `out`) survives unchanged as a
prefix of the final state. -/
theorem c4_cancel_mid_stream (env : AgentEnv) (fuel : Nat)
    (msgs : List ChatMessage) (out : List OutItem) (t calls : Nat)
    (resp : ModelResponse) (k : Nat)
    (hmono : MonotoneCancel env.cancelled)
    (hc : env.cancelled t = false)
    (hsend : env.sendRequest msgs = Except.ok resp)
    (hk : k < resp.stream.length)
    (hcanc : env.cancelled (t + 1 + k) = true)
    (hbefore : ∀ i, i < k → env.cancelled (t + 1 + i) = false)
    (hcollected : callsOf (resp.stream.take k) ≠ []) :
    (loopRounds env (fuel + 1) msgs out t calls).messages =
      msgs ++ [ChatMessage.assistant (resp.stream.take k),
        ChatMessage.userToolResults []]
    ∧ (loopRounds env (fuel + 1) msgs out t calls).out =
        out ++ textsOf (resp.stream.take k)
    ∧ (loopRounds env (fuel + 1) msgs out t calls).modelCalls = calls + 1 := by
  have hcs := consumeStream_cancel_at env resp.streamError resp.stream (t + 1) k
    hk hcanc hbefore
  have hno : (consumeStream env resp.streamError resp.stream (t + 1)).2 = none := by
    rw [hcs]
  have hne : (consumeStream env resp.streamError resp.stream (t + 1)).1.toolCalls ≠ [] := by
    rw [hcs]; exact hcollected
  have heq := loopRounds_continue env fuel msgs out t calls resp hc hsend hno hne
  simp only [hcs] at heq
  obtain ⟨c, cs, htc⟩ : ∃ c cs, callsOf (resp.stream.take k) = c :: cs := by
    cases h : callsOf (resp.stream.take k) with
    | nil => exact absurd h hcollected
    | cons c cs => exact ⟨c, cs, rfl⟩
  have hcanc2 : env.cancelled (t + 1 + k + 1) = true := hmono _ _ (by omega) hcanc
  rw [htc, runTools_cancel_now env c cs _ hcanc2] at heq
  simp only [List.append_nil] at heq
  have hcanc3 : env.cancelled (t + 1 + k + 1 + 1) = true := hmono _ _ (by omega) hcanc
  rw [heq]
  exact ⟨(loopRounds_cancelled_entry env fuel _ _ _ _ hcanc3).1,
    (loopRounds_cancelled_entry env fuel _ _ _ _ hcanc3).2.1,
    (loopRounds_cancelled_entry env fuel _ _ _ _ hcanc3).2.2⟩

/-- Witness for C4: in `envCancelMid` cancellation fires at the second
chunk of round 1; the collected call is never executed. -/
theorem c4_cancel_mid_stream_witness :
    (loopRounds envCancelMid 1 [ChatMessage.userText "u"] [] 0 0).messages =
      [ChatMessage.userText "u"] ++
        [ChatMessage.assistant ([Chunk.toolCall sampleCall, Chunk.text "tail"].take 1),
         ChatMessage.userToolResults []]
    ∧ (loopRounds envCancelMid 1 [ChatMessage.userText "u"] [] 0 0).out =
        [] ++ textsOf ([Chunk.toolCall sampleCall, Chunk.text "tail"].take 1)
    ∧ (loopRounds envCancelMid 1 [ChatMessage.userText "u"] [] 0 0).modelCalls = 0 + 1 :=
  c4_cancel_mid_stream envCancelMid 0 [ChatMessage.userText "u"] [] 0 0
    ⟨[Chunk.toolCall sampleCall, Chunk.text "tail"], none⟩ 1
    (by
      intro u v huv hu
      simp only [envCancelMid, decide_eq_true_eq] at hu ⊢
      omega)
    rfl rfl (by decide) rfl
    (by
      intro i hi
      have h0 : i = 0 := Nat.lt_one_iff.mp hi
      subst h0
      rfl)
    (by decide)

/-- Claim C5 as stated is false: the claim covers "the send/stream
request throws", but in the source only `model.sendRequest` sits inside
the `try` — with `envStreamThrow` the response stream of round 1 throws
after its one text chunk, the run terminates with that unhandled fault
(`streamThrown`, one model call, no further round), and the `❌`
model-error report is never emitted to the sink: the error is not
reported, and the request throw is not the only fatal condition. -/
theorem c5_stream_throw_counterexample :
    (runAgentLoop envStreamThrow "hi").exit =
      ExitReason.streamThrown "connection reset"
    ∧ (runAgentLoop envStreamThrow "hi").out.countP
        (fun o => isModelErrorItem o) = 0
    ∧ (runAgentLoop envStreamThrow "hi").modelCalls = 1 := by
  refine ⟨?_, ?_, ?_⟩ <;> decide

/-- Claim C5 amended: a throw of the request itself (`model.sendRequest`)
is caught, reported exactly once to the output sink as the `❌` report,
and fatally ends the run with no retry and no further rounds; a throw
during iteration of the response stream also fatally ends the run — but
as an unhandled fault escaping `runAgentLoop`, with nothing appended to
the sink — so the request throw is not the only fatal condition in the
loop; over any whole run the `❌` report is emitted at most once. -/
theorem c5_model_error_fatal :
    (∀ (env : AgentEnv) (fuel : Nat) (msgs : List ChatMessage) (out : List OutItem)
        (t calls : Nat) (e : String),
      env.cancelled t = false →
      env.sendRequest msgs = Except.error e →
      loopRounds env (fuel + 1) msgs out t calls =
        ⟨msgs, out ++ [OutItem.modelError ("\n\n❌ **Model error:** " ++ e)],
          calls + 1, ExitReason.modelError, t + 1⟩)
    ∧ (∀ (env : AgentEnv) (fuel : Nat) (msgs : List ChatMessage) (out : List OutItem)
        (t calls : Nat) (resp : ModelResponse) (e : String),
      env.cancelled t = false →
      env.sendRequest msgs = Except.ok resp →
      (consumeStream env resp.streamError resp.stream (t + 1)).2 = some e →
      loopRounds env (fuel + 1) msgs out t calls =
        ⟨msgs, out ++ (consumeStream env resp.streamError resp.stream (t + 1)).1.outs,
          calls + 1, ExitReason.streamThrown e,
          (consumeStream env resp.streamError resp.stream (t + 1)).1.clock⟩)
    ∧ ∀ (env : AgentEnv) (prompt : String),
        (runAgentLoop env prompt).out.countP (fun o => isModelErrorItem o) ≤ 1 := by
  refine ⟨?_, ?_, ?_⟩
  · intro env fuel msgs out t calls e hc hsend
    rw [loopRounds]
    simp [hc, hsend]
  · exact loopRounds_stream_thrown
  · intro env prompt
    have h := loopRounds_modelError_count env MAX_TOOL_ROUNDS
      [ChatMessage.userText (SYSTEM_PROMPT ++ "\n\nUser request: " ++ prompt)] [] 0 0
    simpa [runAgentLoop] using h

/-- Witness for the amended C5: the failing transport of `envModelError`
ends the run after a single model call with the single `❌` report, and
the throwing stream of `envStreamThrow` ends the run unreported. -/
theorem c5_model_error_fatal_witness :
    loopRounds envModelError 1 [ChatMessage.userText "u"] [] 0 0 =
      ⟨[ChatMessage.userText "u"],
        [OutItem.modelError "\n\n❌ **Model error:** network unreachable"],
        1, ExitReason.modelError, 1⟩
    ∧ loopRounds envStreamThrow 1 [ChatMessage.userText "u"] [] 0 0 =
        ⟨[ChatMessage.userText "u"], [OutItem.text "partial answer"],
          1, ExitReason.streamThrown "connection reset", 2⟩ := by
  constructor
  · have h := c5_model_error_fatal.1 envModelError 0 [ChatMessage.userText "u"] [] 0 0
      "network unreachable" rfl rfl
    exact h.trans (by decide)
  · have h := c5_model_error_fatal.2.1 envStreamThrow 0 [ChatMessage.userText "u"] [] 0 0
      ⟨[Chunk.text "partial answer"], some "connection reset"⟩ "connection reset"
      rfl rfl rfl
    exact h.trans (by decide)

/-- Claim C6: a round that collects zero tool calls ends the loop
successfully right after it; in particular, when cancellation never
fires and round 1 of a run carries no tool call, the run stops after
exactly one model call with the no-tool-calls exit and the conversation
still the single initial user message — so no `ToolResult` message is
ever appended. -/
theorem c6_zero_tool_calls_ends :
    (∀ (env : AgentEnv) (fuel : Nat) (msgs : List ChatMessage) (out : List OutItem)
        (t calls : Nat) (resp : ModelResponse),
      env.cancelled t = false →
      env.sendRequest msgs = Except.ok resp →
      (consumeStream env resp.streamError resp.stream (t + 1)).2 = none →
      (consumeStream env resp.streamError resp.stream (t + 1)).1.toolCalls = [] →
      loopRounds env (fuel + 1) msgs out t calls =
        ⟨msgs, out ++ (consumeStream env resp.streamError resp.stream (t + 1)).1.outs,
          calls + 1, ExitReason.noToolCalls,
          (consumeStream env resp.streamError resp.stream (t + 1)).1.clock⟩)
    ∧ ∀ (env : AgentEnv) (prompt : String) (resp : ModelResponse),
        (∀ u, env.cancelled u = false) →
        env.sendRequest [ChatMessage.userText
          (SYSTEM_PROMPT ++ "\n\nUser request: " ++ prompt)] = Except.ok resp →
        resp.streamError = none →
        callsOf resp.stream = [] →
        (runAgentLoop env prompt).messages =
          [ChatMessage.userText (SYSTEM_PROMPT ++ "\n\nUser request: " ++ prompt)]
        ∧ (runAgentLoop env prompt).modelCalls = 1
        ∧ (runAgentLoop env prompt).exit = ExitReason.noToolCalls := by
  constructor
  · exact loopRounds_no_tools
  · intro env prompt resp hnc hsend hserr hempty
    have hcs := consumeStream_no_cancel env resp.streamError resp.stream (0 + 1)
      (fun i _ => hnc _)
    have hno : (consumeStream env resp.streamError resp.stream (0 + 1)).2 = none := by
      rw [hcs]; exact hserr
    have hempty' :
        (consumeStream env resp.streamError resp.stream (0 + 1)).1.toolCalls = [] := by
      rw [hcs]; exact hempty
    have h := loopRounds_no_tools env 14
      [ChatMessage.userText (SYSTEM_PROMPT ++ "\n\nUser request: " ++ prompt)]
      [] 0 0 resp (hnc 0) hsend hno hempty'
    have hrun : runAgentLoop env prompt =
        ⟨[ChatMessage.userText (SYSTEM_PROMPT ++ "\n\nUser request: " ++ prompt)],
          [] ++ (consumeStream env resp.streamError resp.stream (0 + 1)).1.outs, 0 + 1,
          ExitReason.noToolCalls,
          (consumeStream env resp.streamError resp.stream (0 + 1)).1.clock⟩ := h
    rw [hrun]
    exact ⟨rfl, rfl, rfl⟩

/-- Witness for C6: `envTextOnly` answers with text only; the run stops
after round 1 with the conversation untouched. -/
theorem c6_zero_tool_calls_ends_witness :
    (runAgentLoop envTextOnly "hi").messages =
      [ChatMessage.userText (SYSTEM_PROMPT ++ "\n\nUser request: " ++ "hi")]
    ∧ (runAgentLoop envTextOnly "hi").modelCalls = 1
    ∧ (runAgentLoop envTextOnly "hi").exit = ExitReason.noToolCalls :=
  c6_zero_tool_calls_ends.2 envTextOnly "hi" ⟨[Chunk.text "Hello!"], none⟩
    (fun _ => rfl) rfl rfl rfl

/-- Claim C7: the Confirmation Gate (spec §4.2, realized by
`vscode.lm.invokeTool`, which is host machinery outside this
repository; modelled from the spec as `gateInvoke`) answers a request
for an unregistered name with a descriptive tool-not-found `Failure`
instead of throwing; and at the loop boundary an erroring invocation of
the round's (single) call is appended as that call's `ToolResult`
carrying the failure text, after which the loop continues into the next
round with the result visible to the model. -/
theorem c7_tool_not_found :
    (∀ (registry : List ToolDescriptor) (approve : Bool) (name : String)
        (input : ToolInput),
      registry.find? (fun d => d.name == name) = none →
      gateInvoke registry approve name input =
        ToolOutcome.failure ("tool not found: " ++ name))
    ∧ ∀ (env : AgentEnv) (fuel : Nat) (msgs : List ChatMessage) (out : List OutItem)
        (t calls : Nat) (resp : ModelResponse) (call : ToolCallPart) (msg : String),
        (∀ u, env.cancelled u = false) →
        env.sendRequest msgs = Except.ok resp →
        resp.streamError = none →
        callsOf resp.stream = [call] →
        env.invokeTool call.name call.input = Except.error msg →
        loopRounds env (fuel + 1) msgs out t calls =
          loopRounds env fuel
            (msgs ++ [ChatMessage.assistant resp.stream,
              ChatMessage.userToolResults
                [⟨call.callId,
                  [ResultPart.text ("Tool \"" ++ call.name ++ "\" error: " ++ msg)]⟩]])
            (out ++ textsOf resp.stream ++
              [OutItem.toolHeader
                ("\n\n> 🔧 " ++ summarizeToolCall call.name call.input ++ "\n\n")])
            (t + 1 + resp.stream.length + 1) (calls + 1) := by
  constructor
  · intro registry approve name input hnone
    simp [gateInvoke, hnone]
  · intro env fuel msgs out t calls resp call msg hnc hsend hserr hcall herr
    have hcs := consumeStream_no_cancel env resp.streamError resp.stream (t + 1)
      (fun i _ => hnc _)
    have hno : (consumeStream env resp.streamError resp.stream (t + 1)).2 = none := by
      rw [hcs]; exact hserr
    have hne : (consumeStream env resp.streamError resp.stream (t + 1)).1.toolCalls ≠ [] := by
      rw [hcs]
      simp [hcall]
    have heq := loopRounds_continue env fuel msgs out t calls resp (hnc t) hsend hno hne
    simp only [hcs, hcall] at heq
    rw [show runTools env [call] (t + 1 + resp.stream.length) =
        ⟨[⟨call.callId,
            [ResultPart.text ("Tool \"" ++ call.name ++ "\" error: " ++ msg)]⟩],
          [OutItem.toolHeader
            ("\n\n> 🔧 " ++ summarizeToolCall call.name call.input ++ "\n\n")],
          t + 1 + resp.stream.length + 1⟩ from by
      simp [runTools, hnc, toolResultContent, herr]] at heq
    exact heq

/-- Witness for C7: the one-tool registry answers "doesNotExist" with a
not-found failure, and the erroring round of `envToolError` appends the
failure as the call's result and recurses into the next round. -/
theorem c7_tool_not_found_witness :
    gateInvoke sampleRegistry true "agent-router_doesNotExist" sampleInput =
      ToolOutcome.failure "tool not found: agent-router_doesNotExist"
    ∧ loopRounds envToolError 1 [ChatMessage.userText "u"] [] 0 0 =
        loopRounds envToolError 0
          ([ChatMessage.userText "u"] ++
            [ChatMessage.assistant [Chunk.toolCall ghostCall],
              ChatMessage.userToolResults
                [⟨"call-2",
                  [ResultPart.text
                    "Tool \"agent-router_doesNotExist\" error: Tool agent-router_doesNotExist was not contributed"]⟩]])
          ([] ++ textsOf [Chunk.toolCall ghostCall] ++
            [OutItem.toolHeader
              ("\n\n> 🔧 " ++
                summarizeToolCall "agent-router_doesNotExist" sampleInput ++ "\n\n")])
          (0 + 1 + [Chunk.toolCall ghostCall].length + 1) (0 + 1) := by
  constructor
  · exact c7_tool_not_found.1 sampleRegistry true "agent-router_doesNotExist"
      sampleInput rfl
  · have h := c7_tool_not_found.2 envToolError 0 [ChatMessage.userText "u"] [] 0 0
      ⟨[Chunk.toolCall ghostCall], none⟩ ghostCall
      "Tool agent-router_doesNotExist was not contributed"
      (fun _ => rfl) rfl rfl rfl rfl
    exact h.trans (by decide)
